import Mathlib

/-!
Shallow embedding of the line-identity synthesis engine of
`src/scripts/modify_transit_lines.py` (helmet-import-gtfs).

The embedding models, faithfully to the Python source:
* the string helpers used by `form_new_linename` (`str.zfill`, `re.split`,
  `str.split`, `str.strip`, `int(...)`, the `clean_line_code` /
  `remove_last_letters` / `includes_numbers` inner functions);
* `get_operator_name` (area classification over an abstract zone index:
  each feature records whether either endpoint intersects its geometry);
* `get_direction_id` (squared euclidean distances over exact integers;
  the source compares `sqrt` of these quantities, and real `sqrt` is
  strictly monotone on nonnegatives, so the comparison on squares agrees
  with the comparison on euclidean distances);
* `form_new_linename` including the history scan (first match wins), the
  per-letter running counters, the collision `while` loop (modelled with
  explicit fuel, `fuelErr` standing for non-termination), and the Python
  `ValueError` / `IndexError` exits modelled as `Except.error`;
* the orchestration loop of `change_line_names`, with the single
  `publish_network` call modelled as an explicit effect trace.

Python `str(int)` is modelled by `pyStrNat` (counters and incremented
route numbers are always nonnegative in the source). Python values that
may be either `int` or `str` (the resolved line number) are modelled by
`NumVal`; Python `==` between an `int` and a `str` is `False`, mirrored by
`NumVal.pyEq`.
-/

/-- Structural character split (semantics of `str.split` on a predicate):
an empty input gives one empty piece, each matching character starts a new
piece. -/
def splitChar (p : Char → Bool) : List Char → List (List Char)
  | [] => [[]]
  | c :: cs =>
    if p c then [] :: splitChar p cs
    else
      match splitChar p cs with
      | [] => [[c]]
      | t :: ts => (c :: t) :: ts

/-- A predicate split packaged on strings. -/
def pySplitChar (p : Char → Bool) (s : String) : List String :=
  (splitChar p s.data).map (fun l => (⟨l⟩ : String))

/-- Fuelled split on a literal (nonempty) separator, Python `str.split(sep)`
semantics; fuel bounded by the input length is always sufficient. -/
def splitOnAux (sep : List Char) : Nat → List Char → List (List Char)
  | _, [] => [[]]
  | 0, l => [l]
  | f + 1, c :: cs =>
    if sep.isPrefixOf (c :: cs) then
      [] :: splitOnAux sep f ((c :: cs).drop sep.length)
    else
      match splitOnAux sep f cs with
      | [] => [[c]]
      | t :: ts => (c :: t) :: ts

/-- Python `str.split(sep)` for a nonempty literal separator. -/
def pySplitOn (s : String) (sep : String) : List String :=
  (splitOnAux sep.data s.data.length s.data).map (fun l => (⟨l⟩ : String))

/-- Python `sep.join(pieces)`, written with structural recursion. -/
def joinSepGo (sep : String) (acc : String) : List String → String
  | [] => acc
  | a :: as => joinSepGo sep (acc ++ sep ++ a) as

/-- Python `sep.join(pieces)`. -/
def joinSep (sep : String) : List String → String
  | [] => ""
  | a :: as => joinSepGo sep a as

/-- Python slicing `s[0:n]` by code points. -/
def pyTake (s : String) (n : Nat) : String := ⟨s.data.take n⟩

/-- ASCII whitespace recognised by Python's regex `\s`. -/
def pyIsSpace (c : Char) : Bool :=
  c = ' ' || c = '\t' || c = '\n' || c = '\r' || c.toNat = 11 || c.toNat = 12

/-- Value of a decimal digit character (used to read back `pyStrNat`). -/
def digitCharVal (c : Char) : Nat := c.toNat - 48

/-- Decimal value of a digit string, most significant first. -/
def strVal (l : List Char) : Nat := l.foldl (fun a c => 10 * a + digitCharVal c) 0

/-- Fuelled digit expansion for `pyStrNat`; fuel `n` is always sufficient. -/
def pyStrNatAux : Nat → Nat → List Char
  | 0, n => [Nat.digitChar (n % 10)]
  | f + 1, n => if n < 10 then [Nat.digitChar n] else pyStrNatAux f (n / 10) ++ [Nat.digitChar (n % 10)]

/-- Python `str` on a nonnegative integer: decimal representation. -/
def pyStrNat (n : Nat) : String := ⟨pyStrNatAux n n⟩

/-- Python `str.zfill`: left-pad with zeros to the given width. The padded
strings here never carry a sign, so the sign handling of `zfill` is moot. -/
def zfill (w : Nat) (s : String) : String :=
  if w ≤ s.length then s else ⟨List.replicate (w - s.length) '0' ++ s.data⟩

/-- The inner helper `includes_numbers` of `form_new_linename`. -/
def includes_numbers (s : String) : Bool := s.data.any Char.isDigit

/-- The inner helper `clean_line_code`: keep `[a-zA-Z0-9]`, then drop a
leading `ELY` (the intermediate `re.sub(r'/', ...)` is a no-op because the
slash was already removed). -/
def clean_line_code (s : String) : String :=
  let kept : List Char := s.data.filter Char.isAlphanum
  if ("ELY".data).isPrefixOf kept then ⟨kept.drop 3⟩ else ⟨kept⟩

/-- The inner helper `remove_last_letters`: peel a trailing alphabetic run,
then a leading alphabetic run; returns `(core, prefix, suffix)`. -/
def remove_last_letters (s : String) : String × String × String :=
  let l := s.data
  let suf := (l.reverse.takeWhile Char.isAlpha).reverse
  let rest := (l.reverse.dropWhile Char.isAlpha).reverse
  let pre := rest.takeWhile Char.isAlpha
  let core := rest.dropWhile Char.isAlpha
  (⟨core⟩, ⟨pre⟩, ⟨suf⟩)

/-- Python `int(...)` on the cleaned (alphanumeric-only) strings appearing
here: succeeds exactly on a nonempty all-digit string. -/
def pyInt? (s : String) : Option Nat :=
  if s.data ≠ [] ∧ s.data.all Char.isDigit then some (strVal s.data) else none

/-- Python `str.strip('.')`: drop leading and trailing dots. -/
def strip_dots (s : String) : String :=
  ⟨((s.data.dropWhile (· = '.')).reverse.dropWhile (· = '.')).reverse⟩

def trimLeftWs (l : List Char) : List Char := l.dropWhile pyIsSpace

def trimRightWs (l : List Char) : List Char := (l.reverse.dropWhile pyIsSpace).reverse

/-- Trimming of the non-first pieces of `re.split(r'\s*-\s*', s)`. -/
def reSplitDashRest : List String → List String
  | [] => []
  | [q] => [⟨trimLeftWs q.data⟩]
  | q :: qs => (⟨trimLeftWs (trimRightWs q.data)⟩ : String) :: reSplitDashRest qs

/-- Python `re.split(r'\s*-\s*', s)`: split on dashes, consuming the
whitespace adjacent to each dash (the first piece keeps leading and the
last piece keeps trailing whitespace). -/
def reSplitDash (s : String) : List String :=
  match pySplitChar (· = '-') s with
  | [] => [s]
  | [p] => [p]
  | p :: ps => (⟨trimRightWs p.data⟩ : String) :: reSplitDashRest ps

/-- Python `re.split(r'\s+', s)`: tokens between maximal whitespace runs,
with an empty boundary token when the string starts/ends with whitespace. -/
def splitWs (s : String) : List String :=
  if s.data = [] then [""]
  else
    (if pyIsSpace (s.data.headD 'x') then [""] else [])
      ++ (pySplitChar pyIsSpace s).filter (fun t => t ≠ "")
      ++ (if pyIsSpace (s.data.getLastD 'x') then [""] else [])

/-- A resolved line number: a Python `int` (counter draws, incremented
numbers) or a Python `str` (everything after the recombination step). -/
inductive NumVal
  | i : Nat → NumVal
  | s : String → NumVal
deriving DecidableEq

/-- Python `str(...)` applied to a resolved line number. -/
def NumVal.toStr : NumVal → String
  | .i n => pyStrNat n
  | .s t => t

/-- Python `==` between a stored line number and a string: an `int` never
equals a `str`. -/
def NumVal.pyEq : NumVal → String → Bool
  | .i _, _ => false
  | .s t, u => t = u

/-- One entry of the `descriptions` history kept by `form_new_linename`:
the cleaned route description, the resolved `(number, letter)` pair and the
direction id, in insertion order. -/
structure HistEntry where
  route : String
  num : NumVal
  letter : String
  dir : Nat
deriving DecidableEq

/-- Lookup in the `running_n` dict (association list keyed by letter). -/
def rnFind : List (String × Nat) → String → Option Nat
  | [], _ => none
  | (a, b) :: rest, k => if a = k then some b else rnFind rest k

/-- Assignment into the `running_n` dict. -/
def rnSet : List (String × Nat) → String → Nat → List (String × Nat)
  | [], k, v => [(k, v)]
  | (a, b) :: rest, k, v => if a = k then (k, v) :: rest else (a, b) :: rnSet rest k v

/-- The errors `form_new_linename` can raise: the `IndexError` from reading
`parts[1]`, the `ValueError('Line number is not a number')` together with the
values the source prints (`route_number`, `line_number`, `line_code_suffix`),
and exhaustion of the fuel bounding the collision `while` loop. -/
inductive NameErr
  | indexErr
  | valueErr (route_number line_number suffix : String)
  | fuelErr
deriving DecidableEq

/-- Last dash-separated segment of a description (`.split(' - ')[-1]`). -/
def lastSeg (s : String) : String := (pySplitOn s " - ").getLastD ""

/-- First dash-separated segment of a description (`.split(' - ')[0]`). -/
def firstSeg (s : String) : String := (pySplitOn s " - ").headD ""

/-- Result of the history `for`-loop of `form_new_linename`: a match giving
`(line_number, line_code_prefix, line_code_suffix)`, the `ValueError` case,
or fall-through to the loop's `else` clause. -/
inductive ScanResult
  | found : NumVal → String → String → ScanResult
  | failInt : String → String → String → ScanResult
  | nomatch
deriving DecidableEq

/-- The history scan of `form_new_linename` (lines 389-414 of the source):
entries are consulted in insertion order and the first matching rule wins. -/
def scanHist (cleaned reversedR : String) (dir : Nat) (route_number letter : String) :
    List HistEntry → ScanResult
  | [] => .nomatch
  | e :: rest =>
    if e.route = cleaned ∧ e.dir ≠ dir then .found e.num "" ""
    else if e.route = reversedR ∧ e.dir ≠ dir then .found e.num "" ""
    else if strip_dots (lastSeg e.route) = strip_dots (firstSeg cleaned) ∧ e.dir ≠ dir
        ∧ e.num.pyEq (clean_line_code route_number) = true ∧ letter = e.letter then
      .found e.num "" ""
    else if e.num.pyEq (clean_line_code route_number) = true ∧ letter = e.letter then
      match remove_last_letters (clean_line_code route_number) with
      | (core, pre, suf) =>
        if suf = "" ∧ core.length + pre.length < 4 then .found (.s core) pre "B"
        else
          match pyInt? core with
          | some n => .found (.i (n + 1)) pre suf
          | none => .failInt route_number core suf
    else scanHist cleaned reversedR dir route_number letter rest

/-- The route-name parsing prefix of `form_new_linename` (lines 360-378):
split on dashes, read `parts[1]` (IndexError when absent), and conditionally
extract a number token while rewriting the head segment. Returns the number
token (possibly empty) and the remaining segments. -/
def parse_route (name : String) : Except NameErr (String × List String) :=
  match reSplitDash name with
  | [] => .error .indexErr
  | [_] => .error .indexErr
  | p0 :: p1 :: rest =>
    let sp := splitWs p1
    if 1 < sp.length ∧ includes_numbers p0 = true then
      if 2 < sp.length then
        if includes_numbers (sp.headD "") = true then
          .ok (p0, (joinSep " " (sp.drop 1)) :: rest)
        else
          -- dead branch in the source: the rebuilt list is discarded, so the
          -- popped `parts` list is left unchanged
          .ok (p0, p1 :: rest)
      else if includes_numbers (sp.headD "") = true then
        .ok (p0, sp.getD 1 "" :: rest)
      else
        .ok (p0, sp.headD "" :: rest)
    else if includes_numbers p0 = true then
      .ok (p0, p1 :: rest)
    else if p0 = "" then
      .ok ("", p1 :: rest)
    else
      .ok ("", p0 :: p1 :: rest)

/-- The collision `while` loop of `form_new_linename` (lines 433-436),
with explicit fuel; returns the final linename, the final `line_number`
value (as appended to the history) and the updated counters. -/
def resolveCollision (letter : String) (nfill : Nat) (dir : Nat) (lnames : List String) :
    Nat → NumVal → List (String × Nat) → Option (String × NumVal × List (String × Nat))
  | 0, _, _ => none
  | fuel + 1, lnum, rn =>
    let nm := letter ++ zfill nfill lnum.toStr ++ pyStrNat dir
    if nm ∈ lnames then
      let c := (rnFind rn letter).getD 0
      resolveCollision letter nfill dir lnames fuel (.i c) (rnSet rn letter (c + 1))
    else some (nm, lnum, rn)

/-- The recombination step of `form_new_linename` (lines 422-430): stitch
the first character of the peeled prefix and suffix back around the number
and stringify the result. -/
def recombine (lnum : NumVal) (pre suf : String) : String :=
  if suf ≠ "" ∧ pre ≠ "" then pre.take 1 ++ lnum.toStr ++ suf.take 1
  else if pre ≠ "" then pre.take 1 ++ lnum.toStr
  else if suf ≠ "" then lnum.toStr ++ suf.take 1
  else lnum.toStr

/-- The tail of `form_new_linename` (lines 422-439): recombine prefix and
suffix with the resolved number, build the candidate name, resolve
collisions, and append to `lnames` and `descriptions`. -/
def finishName (letter : String) (nfill : Nat) (dir : Nat) (lnames : List String)
    (rn : List (String × Nat)) (hist : List HistEntry) (cleaned : String)
    (lnum : NumVal) (pre suf : String) :
    Except NameErr (String × String × List String × List (String × Nat) × List HistEntry) :=
  match resolveCollision letter nfill dir lnames (lnames.length + 2)
      (.s (recombine lnum pre suf)) rn with
  | none => .error .fuelErr
  | some (nm, finalNum, rn2) =>
    .ok (nm, cleaned, lnames ++ [nm], rn2, hist ++ [⟨cleaned, finalNum, letter, dir⟩])

/-- Padding width used by `form_new_linename` for a given area letter
(lines 383-385): 4, reduced by one for a two-character area code. -/
def nfillOf (letter : String) : Nat := if letter.length = 2 then 3 else 4

/-- Initialization of the running counter for a letter (lines 356-357):
absent letters start at 99. -/
def rnInit (running_n : List (String × Nat)) (line_letter : String) : List (String × Nat) :=
  if (rnFind running_n line_letter).isNone then rnSet running_n line_letter 99 else running_n

/-- The helper `form_new_linename` (lines 303-439 of the source). Returns
the new linename, the cleaned route description, and the updated
`lnames` / `running_n` / `descriptions` state. -/
def form_new_linename (routeName : String) (line_letter : String) (dir_id : Nat)
    (lnames : List String) (running_n : List (String × Nat)) (descriptions : List HistEntry) :
    Except NameErr (String × String × List String × List (String × Nat) × List HistEntry) :=
  let rn0 := rnInit running_n line_letter
  match parse_route routeName with
  | .error e => .error e
  | .ok (route_number, parts) =>
    let cleaned_route := joinSep " - " parts
    let reversed_route := joinSep " - " parts.reverse
    let n_to_fill := nfillOf line_letter
    match scanHist cleaned_route reversed_route dir_id route_number line_letter descriptions with
    | .failInt a b c => .error (.valueErr a b c)
    | .found lnum pre suf =>
      finishName line_letter n_to_fill dir_id lnames rn0 descriptions cleaned_route lnum pre suf
    | .nomatch =>
      if route_number ≠ "" then
        match remove_last_letters (clean_line_code route_number) with
        | (core, pre, suf) =>
          finishName line_letter n_to_fill dir_id lnames rn0 descriptions cleaned_route
            (.s core) pre suf
      else
        let c := (rnFind rn0 line_letter).getD 0
        finishName line_letter n_to_fill dir_id lnames (rnSet rn0 line_letter (c + 1))
          descriptions cleaned_route (.i c) "" ""

/-- State threaded through a renaming run: emitted names, per-letter
counters, and the description history. -/
structure RunState where
  lnames : List String
  running_n : List (String × Nat)
  descriptions : List HistEntry
deriving DecidableEq

/-- One line processed through `form_new_linename`, updating the run state. -/
def processLine (st : RunState) (routeName letter : String) (dir : Nat) :
    Except NameErr (String × String × RunState) :=
  match form_new_linename routeName letter dir st.lnames st.running_n st.descriptions with
  | .error e => .error e
  | .ok (nm, cr, ln, rn, ds) => .ok (nm, cr, ⟨ln, rn, ds⟩)

/-- A line request: raw route name plus the classified letter and direction. -/
structure LineReq where
  routeName : String
  letter : String
  dir : Nat
deriving DecidableEq

/-- Sequentially process a batch of lines through the shared state, stopping
at the first error, exactly as the renaming loop does. -/
def processRun (st : RunState) : List LineReq → Except NameErr RunState
  | [] => .ok st
  | l :: ls =>
    match processLine st l.routeName l.letter l.dir with
    | .error e => .error e
    | .ok (_, _, st2) => processRun st2 ls

/-- One feature of the Helmet area geojson, abstracted for classification:
its municipality name and whether the line's start (`p1`) or terminus
(`p2`) point intersects its geometry. -/
structure Feature where
  muniName : String
  hitsStart : Bool
  hitsEnd : Bool
deriving DecidableEq

/-- Lookup in the `muni_short_codes` dict; `none` is Python's `KeyError`. -/
def lookupCode : List (String × String) → String → Option String
  | [], _ => none
  | (a, b) :: rest, k => if a = k then some b else lookupCode rest k

/-- The `for` loop of `get_operator_name` (lines 254-264): enumerate the
features, appending the short code of each zone hit by either endpoint; a
`KeyError` on the lookup breaks out (the source catches it), as does
collecting two codes; falling out of the loop returns `"V"`. -/
def gon_loop (codes : List (String × String)) : List Feature → List String → String
  | [], _ => "V"
  | f :: rest, muniname =>
    if f.hitsStart = true ∨ f.hitsEnd = true then
      match lookupCode codes f.muniName with
      | none => "V"
      | some code =>
        let m := muniname ++ [code]
        if m.length = 2 then
          if m.getD 0 "" = m.getD 1 "" ∧ m.getD 0 "" ∈ codes.map Prod.snd then m.getD 0 ""
          else "V"
        else gon_loop codes rest m
    else
      if muniname.length = 2 then
        if muniname.getD 0 "" = muniname.getD 1 "" ∧ muniname.getD 0 "" ∈ codes.map Prod.snd then
          muniname.getD 0 ""
        else "V"
      else gon_loop codes rest muniname

/-- The helper `get_operator_name` (lines 218-265): OnniBus agencies get
the fixed letter `"O"`; otherwise the zone scan runs. The Python substring
test `"OnniBus" in agency` is expressed through `splitOn`. -/
def get_operator_name (agency : String) (feats : List Feature)
    (codes : List (String × String)) : String :=
  if 1 < (pySplitOn agency "OnniBus").length then "O" else gon_loop codes feats []

/-- The helper `get_direction_id` (lines 267-301). The source compares
`sqrt((hel_x-x)**2 + (hel_y-y)**2)` for the two endpoints; real square
root is strictly monotone on nonnegatives (`sqrt_dist_cmp` below), so the
comparison is performed on the exact squared distances. -/
def get_direction_id (first_node last_node xi yi xj yj : Int) : Nat :=
  if first_node = last_node then 3
  else
    let start_sq := (25496699 - xi) ^ 2 + (6673208 - yi) ^ 2
    let end_sq := (25496699 - xj) ^ 2 + (6673208 - yj) ^ 2
    if end_sq < start_sq then 2 else 1

/-- A transit line record as the renaming loop of `change_line_names`
sees it: mode, raw route name, agency, the zone-intersection data of its
endpoints, node ids and endpoint coordinates, and its current id and
description (kept unchanged when the mode does not match). -/
structure OrchLine where
  mode : String
  routeName : String
  agency : String
  feats : List Feature
  firstNode : Int
  lastNode : Int
  xi : Int
  yi : Int
  xj : Int
  yj : Int
  origId : String
  origDesc : String
deriving DecidableEq

/-- Effects on the external line store: the only one the renaming pass
performs is the final `scenario.publish_network(network)`, carrying the
`(id, description)` pairs of the whole network. -/
inductive Effect
  | publish : List (String × String) → Effect
deriving DecidableEq

/-- Description post-processing of `change_line_names` (lines 203-212):
re-split the cleaned description, drop a blank leading piece, rejoin with
bare dashes and truncate to 115 characters. -/
def finalize_desc (desc : String) : String :=
  let re_parts := reSplitDash desc
  let short := pySplitOn desc "-"
  if short.headD "" ≠ " " then pyTake (joinSep "-" re_parts) 115
  else pyTake (joinSep "-" (re_parts.drop 1)) 115

/-- The renaming loop of `change_line_names` (lines 193-216): rename the
lines whose mode is configured, keep the others untouched, and publish the
whole network once after the loop; an exception escaping the loop aborts
the run before any publish. Returns the effect trace and the error, if any. -/
def clnLoop (modes : List String) (codes : List (String × String)) :
    List OrchLine → RunState → List (String × String) → List Effect × Option NameErr
  | [], _, acc => ([Effect.publish acc], none)
  | l :: ls, st, acc =>
    if l.mode ∈ modes then
      let letter := get_operator_name l.agency l.feats codes
      let dir := get_direction_id l.firstNode l.lastNode l.xi l.yi l.xj l.yj
      match processLine st l.routeName letter dir with
      | .error e => ([], some e)
      | .ok (nm, desc, st2) => clnLoop modes codes ls st2 (acc ++ [(nm, finalize_desc desc)])
    else clnLoop modes codes ls st (acc ++ [(l.origId, l.origDesc)])

/-- The orchestrator `change_line_names` over a batch of line records,
starting from empty naming state. -/
def change_line_names (modes : List String) (codes : List (String × String))
    (lines : List OrchLine) : List Effect × Option NameErr :=
  clnLoop modes codes lines ⟨[], [], []⟩ []

/-- Decidable version of the identifier shape asserted by the spec:
one or two leading letters, then only digits, with letter count plus digit
count equal to six (four padded number digits plus the direction digit for
a one-letter area, three plus one for a two-letter area). -/
def claim_shape (nm : String) : Bool :=
  let letters := nm.data.takeWhile Char.isAlpha
  let rest := nm.data.drop letters.length
  rest.all Char.isDigit &&
    ((letters.length = 1 && rest.length = 5) || (letters.length = 2 && rest.length = 4))

/-- A raw route name whose dash split has at least two segments and whose
first segment contains no digit: such a line has no parseable route-number
token. -/
def no_number_line (name : String) : Bool :=
  2 ≤ (reSplitDash name).length && !includes_numbers ((reSplitDash name).headD "")

/-- The candidate identifier built from an integer counter value: area
letter, zero-padded decimal number, direction digit. -/
def mkNameI (letter : String) (nfill dir n : Nat) : String :=
  letter ++ zfill nfill (pyStrNat n) ++ pyStrNat dir


theorem digitCharVal_digitChar (d : Nat) (h : d < 10) : digitCharVal (Nat.digitChar d) = d := by
  interval_cases d <;> rfl

theorem strVal_append_singleton (l : List Char) (c : Char) :
    strVal (l ++ [c]) = 10 * strVal l + digitCharVal c := by
  simp [strVal, List.foldl_append]

theorem pyStrNatAux_val : ∀ f n, n ≤ f → strVal (pyStrNatAux f n) = n := by
  intro f
  induction f with
  | zero =>
    intro n hn
    interval_cases n
    decide
  | succ f ih =>
    intro n hn
    by_cases h : n < 10
    · have : strVal (pyStrNatAux (f + 1) n) = digitCharVal (Nat.digitChar n) := by
        simp [pyStrNatAux, h, strVal]
      rw [this, digitCharVal_digitChar n h]
    · have hrw : pyStrNatAux (f + 1) n = pyStrNatAux f (n / 10) ++ [Nat.digitChar (n % 10)] := by
        simp [pyStrNatAux, h]
      have hdiv : n / 10 ≤ f := by
        have := Nat.div_lt_self (n := n) (by omega) (by omega : 1 < 10)
        omega
      have hmod : n % 10 < 10 := Nat.mod_lt _ (by omega)
      rw [hrw, strVal_append_singleton, ih _ hdiv, digitCharVal_digitChar _ hmod]
      omega

theorem strVal_pyStrNat (n : Nat) : strVal (pyStrNat n).data = n :=
  pyStrNatAux_val n n (Nat.le_refl n)

theorem strVal_zero_cons (l : List Char) : strVal ('0' :: l) = strVal l := by
  show List.foldl _ (10 * 0 + digitCharVal '0') l = _
  norm_num [digitCharVal]
  rfl

theorem strVal_replicate_append : ∀ k l, strVal (List.replicate k '0' ++ l) = strVal l := by
  intro k
  induction k with
  | zero => intro l; simp
  | succ k ih =>
    intro l
    rw [List.replicate_succ, List.cons_append, strVal_zero_cons, ih]

theorem strVal_zfill (w n : Nat) : strVal (zfill w (pyStrNat n)).data = n := by
  unfold zfill
  split
  · exact strVal_pyStrNat n
  · show strVal (List.replicate _ '0' ++ (pyStrNat n).data) = n
    rw [strVal_replicate_append, strVal_pyStrNat]

theorem pyStrNat_inj {a b : Nat} (h : pyStrNat a = pyStrNat b) : a = b := by
  have := congrArg (fun s => strVal s.data) h
  simpa [strVal_pyStrNat] using this

theorem zfill_pyStrNat_inj {w a b : Nat} (h : zfill w (pyStrNat a) = zfill w (pyStrNat b)) :
    a = b := by
  have := congrArg (fun s => strVal s.data) h
  simpa [strVal_zfill] using this

theorem data_append (a b : String) : (a ++ b).data = a.data ++ b.data := rfl

theorem string_append_right_inj {x : String} {y z : String} (h : x ++ y = x ++ z) : y = z := by
  apply String.ext
  have := congrArg String.data h
  rw [data_append, data_append] at this
  exact List.append_cancel_left this

theorem string_append_left_inj {x y z : String} (h : x ++ z = y ++ z) : x = y := by
  apply String.ext
  have := congrArg String.data h
  rw [data_append, data_append] at this
  exact List.append_cancel_right this

theorem mkNameI_inj {letter : String} {nfill dir a b : Nat}
    (h : mkNameI letter nfill dir a = mkNameI letter nfill dir b) : a = b := by
  unfold mkNameI at h
  rw [String.append_assoc, String.append_assoc] at h
  have h2 := string_append_right_inj h
  have h3 : zfill nfill (pyStrNat a) = zfill nfill (pyStrNat b) := by
    apply String.ext
    have := congrArg String.data h2
    rw [data_append, data_append] at this
    exact List.append_cancel_right this
  exact zfill_pyStrNat_inj h3

theorem resolveCollision_ok {letter : String} {nfill dir : Nat} {lnames : List String} :
    ∀ (fuel : Nat) (lnum : NumVal) (rn : List (String × Nat)) {nm : String} {num : NumVal}
      {rn2 : List (String × Nat)},
      resolveCollision letter nfill dir lnames fuel lnum rn = some (nm, num, rn2) →
      nm ∉ lnames ∧ nm = letter ++ zfill nfill num.toStr ++ pyStrNat dir := by
  intro fuel
  induction fuel with
  | zero =>
    intro lnum rn nm num rn2 h
    simp [resolveCollision] at h
  | succ fuel ih =>
    intro lnum rn nm num rn2 h
    simp only [resolveCollision] at h
    split at h
    · exact ih _ _ h
    · rename_i hmem
      simp only [Option.some.injEq, Prod.mk.injEq] at h
      obtain ⟨h1, h2, h3⟩ := h
      subst h1
      subst h2
      exact ⟨hmem, rfl⟩

theorem finishName_ok {letter : String} {nfill dir : Nat} {lnames : List String}
    {rn : List (String × Nat)} {hist : List HistEntry} {cleaned : String}
    {lnum : NumVal} {pre suf : String} {nm cr : String} {ln2 : List String}
    {rn2 : List (String × Nat)} {ds2 : List HistEntry}
    (h : finishName letter nfill dir lnames rn hist cleaned lnum pre suf =
      .ok (nm, cr, ln2, rn2, ds2)) :
    cr = cleaned ∧ ln2 = lnames ++ [nm] ∧ nm ∉ lnames ∧
      ∃ num : NumVal, nm = letter ++ zfill nfill num.toStr ++ pyStrNat dir ∧
        ds2 = hist ++ [⟨cleaned, num, letter, dir⟩] := by
  unfold finishName at h
  split at h
  · simp at h
  · rename_i nm0 num0 rn0 heq
    simp only [Except.ok.injEq, Prod.mk.injEq] at h
    obtain ⟨h1, h2, h3, h4, h5⟩ := h
    obtain ⟨hnotmem, hshape⟩ := resolveCollision_ok _ _ _ heq
    subst h1
    subst h2
    subst h3
    subst h4
    subst h5
    exact ⟨rfl, rfl, hnotmem, num0, hshape, rfl⟩

theorem form_ok {routeName letter : String} {dir : Nat} {lnames : List String}
    {rn : List (String × Nat)} {ds : List HistEntry} {nm cr : String} {ln2 : List String}
    {rn2 : List (String × Nat)} {ds2 : List HistEntry}
    (h : form_new_linename routeName letter dir lnames rn ds = .ok (nm, cr, ln2, rn2, ds2)) :
    ln2 = lnames ++ [nm] ∧ nm ∉ lnames ∧
      ∃ num : NumVal, nm = letter ++ zfill (nfillOf letter) num.toStr ++ pyStrNat dir ∧
        ds2 = ds ++ [⟨cr, num, letter, dir⟩] := by
  unfold form_new_linename at h
  dsimp only at h
  repeat' split at h
  all_goals
    first
    | simp at h
    | (obtain ⟨hcr, hln, hmem, num, hshape, hds⟩ := finishName_ok h
       subst hcr
       exact ⟨hln, hmem, num, hshape, hds⟩)

theorem processLine_ok {st : RunState} {routeName letter : String} {dir : Nat}
    {nm cr : String} {st2 : RunState}
    (h : processLine st routeName letter dir = .ok (nm, cr, st2)) :
    st2.lnames = st.lnames ++ [nm] ∧ nm ∉ st.lnames ∧
      ∃ num : NumVal, nm = letter ++ zfill (nfillOf letter) num.toStr ++ pyStrNat dir ∧
        st2.descriptions = st.descriptions ++ [⟨cr, num, letter, dir⟩] := by
  unfold processLine at h
  split at h
  · simp at h
  · rename_i nm0 cr0 ln0 rn0 ds0 heq
    simp only [Except.ok.injEq, Prod.mk.injEq] at h
    obtain ⟨h1, h2, h3⟩ := h
    subst h1
    subst h2
    subst h3
    exact form_ok heq

/-- C1: in every run of the renaming pass (any sequence of lines pushed
through `form_new_linename` with the shared `lnames` list), no two
identifiers appended to the used-names list are equal: each candidate is
checked against the list and redrawn from the letter's counter until free,
so a run that starts from a duplicate-free list ends with one. -/
theorem run_identifiers_nodup (reqs : List LineReq) :
    ∀ st0 st : RunState, st0.lnames.Nodup → processRun st0 reqs = .ok st →
      st.lnames.Nodup := by
  induction reqs with
  | nil =>
    intro st0 st h0 h
    unfold processRun at h
    simp only [Except.ok.injEq] at h
    subst h
    exact h0
  | cons l ls ih =>
    intro st0 st h0 h
    unfold processRun at h
    split at h
    · simp at h
    · rename_i nm cr st1 hpl
      obtain ⟨hln, hmem, -⟩ := processLine_ok hpl
      have h1 : st1.lnames.Nodup := by
        rw [hln]
        exact List.Nodup.append h0 (List.nodup_singleton nm) (by simpa using hmem)
      exact ih st1 st h1 h

/-- Witness for C1: a two-line run in which the second line's candidate
`V00991` collides with the first line's identifier and is redrawn from the
counter to `V01001`; the final used-names list is duplicate-free. -/
theorem run_identifiers_nodup_witness :
    (RunState.mk ["V00991", "V01001"] [("V", 101)]
      [⟨"A - B", .s "99", "V", 1⟩, ⟨"C - D", .i 100, "V", 1⟩]).lnames.Nodup :=
  run_identifiers_nodup [⟨"A - B", "V", 1⟩, ⟨"0099 - C - D", "V", 1⟩] ⟨[], [], []⟩
    (RunState.mk ["V00991", "V01001"] [("V", 101)]
      [⟨"A - B", .s "99", "V", 1⟩, ⟨"C - D", .i 100, "V", 1⟩])
    (by simp) (by rfl)

/-- C10: `form_new_linename` reads the second dash-separated segment before
checking that it exists, so every raw route name whose dash split yields a
single segment (no dash at all) fails with the out-of-range index error;
no number token is extracted and no identifier is produced. -/
theorem single_segment_index_error (name letter : String) (dir : Nat)
    (lnames : List String) (rn : List (String × Nat)) (ds : List HistEntry)
    (h : (reSplitDash name).length = 1) :
    form_new_linename name letter dir lnames rn ds = .error .indexErr := by
  have hp : parse_route name = .error .indexErr := by
    unfold parse_route
    cases hr : reSplitDash name with
    | nil => rfl
    | cons p ps =>
      cases ps with
      | nil => rfl
      | cons q qs => rw [hr] at h; simp at h
  unfold form_new_linename
  simp only [hp]

/-- Witness for C10 at the dashless route name `Highway Express`. -/
theorem single_segment_index_error_witness :
    form_new_linename "Highway Express" "L" 1 [] [] [] = .error .indexErr :=
  single_segment_index_error "Highway Express" "L" 1 [] [] [] (by rfl)

/-- C6: the direction classifier returns the loop code 3 whenever the start
and end node ids are equal, regardless of coordinates; otherwise it returns
2 (towards the reference point) exactly when the euclidean distance from
the fixed reference point to the start strictly exceeds the distance to
the end, and 1 in every other case, ties included. -/
theorem get_direction_id_spec (fn ln xi yi xj yj : Int) :
    (fn = ln → get_direction_id fn ln xi yi xj yj = 3) ∧
    (fn ≠ ln →
      (get_direction_id fn ln xi yi xj yj = 2 ↔
        Real.sqrt ((((25496699 - xi) ^ 2 + (6673208 - yi) ^ 2 : Int) : ℝ)) >
          Real.sqrt ((((25496699 - xj) ^ 2 + (6673208 - yj) ^ 2 : Int) : ℝ))) ∧
      (get_direction_id fn ln xi yi xj yj = 1 ↔
        ¬ Real.sqrt ((((25496699 - xi) ^ 2 + (6673208 - yi) ^ 2 : Int) : ℝ)) >
            Real.sqrt ((((25496699 - xj) ^ 2 + (6673208 - yj) ^ 2 : Int) : ℝ)))) := by
  have hkey : Real.sqrt ((((25496699 - xj) ^ 2 + (6673208 - yj) ^ 2 : Int) : ℝ)) <
      Real.sqrt ((((25496699 - xi) ^ 2 + (6673208 - yi) ^ 2 : Int) : ℝ)) ↔
      ((25496699 - xj) ^ 2 + (6673208 - yj) ^ 2 : Int) <
        ((25496699 - xi) ^ 2 + (6673208 - yi) ^ 2 : Int) := by
    rw [Real.sqrt_lt_sqrt_iff (by positivity)]
    exact_mod_cast Iff.rfl
  constructor
  · intro h
    simp [get_direction_id, h]
  · intro h
    have hval : get_direction_id fn ln xi yi xj yj =
        if ((25496699 - xj) ^ 2 + (6673208 - yj) ^ 2 : Int) <
            ((25496699 - xi) ^ 2 + (6673208 - yi) ^ 2 : Int) then 2 else 1 := by
      simp [get_direction_id, h]
    by_cases hc : ((25496699 - xj) ^ 2 + (6673208 - yj) ^ 2 : Int) <
        ((25496699 - xi) ^ 2 + (6673208 - yi) ^ 2 : Int)
    · rw [hval, if_pos hc]
      refine ⟨⟨fun _ => hkey.mpr hc, fun _ => rfl⟩, ?_, ?_⟩
      · intro h2
        exact absurd h2 (by norm_num)
      · intro h2
        exact (h2 (hkey.mpr hc)).elim
    · rw [hval, if_neg hc]
      refine ⟨⟨fun h2 => absurd h2 (by norm_num), fun hs => (hc (hkey.mp hs)).elim⟩,
        fun _ => fun hs => hc (hkey.mp hs), fun _ => rfl⟩

/-- Witness for C6: a loop line (equal node ids) gets code 3, and a
non-loop line gets the distance-comparison characterisation. -/
theorem get_direction_id_spec_witness :
    get_direction_id 7 7 0 0 9 9 = 3 ∧
    ((get_direction_id 1 2 0 0 25496699 6673208 = 2 ↔
      Real.sqrt ((((25496699 - 0) ^ 2 + (6673208 - 0) ^ 2 : Int) : ℝ)) >
        Real.sqrt ((((25496699 - 25496699) ^ 2 + (6673208 - 6673208) ^ 2 : Int) : ℝ))) ∧
    (get_direction_id 1 2 0 0 25496699 6673208 = 1 ↔
      ¬ Real.sqrt ((((25496699 - 0) ^ 2 + (6673208 - 0) ^ 2 : Int) : ℝ)) >
          Real.sqrt ((((25496699 - 25496699) ^ 2 + (6673208 - 6673208) ^ 2 : Int) : ℝ)))) :=
  ⟨(get_direction_id_spec 7 7 0 0 9 9).1 rfl,
    (get_direction_id_spec 1 2 0 0 25496699 6673208).2 (by decide)⟩

/-- C2 counterexample: an endpoint falling in a zone whose name is missing
from the short-code table ("Unknownville") does not abort classification:
the `KeyError` is caught, the loop breaks, and the classifier silently
returns the generic fallback letter `V` — exactly the value it returns
when no zone matches at all, so the miss is not flagged in any way. -/
theorem unknown_area_cex :
    get_operator_name "Local Co" [⟨"Unknownville", true, false⟩]
        [("Lakeside District", "L")] = "V" ∧
      get_operator_name "Local Co" [] [("Lakeside District", "L")] = "V" :=
  ⟨rfl, rfl⟩

/-- C2 amended: when the first feature hit by either endpoint has an area
name missing from the name-to-short-code table, `get_operator_name`
silently returns the fallback letter `V` (the caught `KeyError` breaks the
loop and control falls through to the final `return "V"`); no error is
propagated and the line is not flagged. -/
theorem unknown_area_silent_fallback (agency : String) (pre : List Feature) (f : Feature)
    (rest : List Feature) (codes : List (String × String))
    (hagency : (pySplitOn agency "OnniBus").length ≤ 1)
    (hpre : ∀ g ∈ pre, g.hitsStart = false ∧ g.hitsEnd = false)
    (hf : f.hitsStart = true ∨ f.hitsEnd = true)
    (hmiss : lookupCode codes f.muniName = none) :
    get_operator_name agency (pre ++ f :: rest) codes = "V" := by
  unfold get_operator_name
  rw [if_neg (by omega)]
  induction pre with
  | nil =>
    rw [List.nil_append]
    unfold gon_loop
    rw [if_pos hf, hmiss]
  | cons g gs ih =>
    rw [List.cons_append]
    unfold gon_loop
    have hg := hpre g (List.mem_cons_self g gs)
    rw [if_neg (by simp [hg.1, hg.2])]
    rw [if_neg (by simp)]
    exact ih (fun x hx => hpre x (List.mem_cons_of_mem g hx))

/-- Witness for C2 amended: a non-hitting feature followed by a hitting
feature with an unknown name yields the silent fallback `V`. -/
theorem unknown_area_silent_fallback_witness :
    get_operator_name "Local Co" [⟨"Nowhere", false, false⟩, ⟨"Unknownville", true, false⟩]
      [("Lakeside District", "L")] = "V" :=
  unknown_area_silent_fallback "Local Co" [⟨"Nowhere", false, false⟩]
    ⟨"Unknownville", true, false⟩ [] [("Lakeside District", "L")]
    (by decide) (by decide) (Or.inl rfl) (by rfl)

/-- C9: when the first history entry triggers the same-number-different-
route rule (its stored number equals the cleaned route token and its letter
matches, with no earlier rule firing because its direction equals the
line's) and the peeled numeric core cannot be parsed as an integer,
`form_new_linename` aborts with the `ValueError` carrying the offending
raw values (route-number token, peeled core, suffix); no identifier is
emitted for the line. -/
theorem unparseable_core_value_error (routeName letter : String) (dir : Nat)
    (lnames : List String) (rn : List (String × Nat)) (e : HistEntry)
    (rest : List HistEntry) (rnum : String) (parts : List String) (core pre suf : String)
    (hp : parse_route routeName = .ok (rnum, parts))
    (hdir : e.dir = dir)
    (hnum : e.num.pyEq (clean_line_code rnum) = true)
    (hlet : letter = e.letter)
    (hpeel : remove_last_letters (clean_line_code rnum) = (core, pre, suf))
    (hwide : ¬(suf = "" ∧ core.length + pre.length < 4))
    (hint : pyInt? core = none) :
    form_new_linename routeName letter dir lnames rn (e :: rest) =
      .error (.valueErr rnum core suf) := by
  have hscan : scanHist (joinSep " - " parts) (joinSep " - " parts.reverse) dir rnum letter
      (e :: rest) = .failInt rnum core suf := by
    unfold scanHist
    rw [if_neg (fun hx => hx.2 hdir), if_neg (fun hx => hx.2 hdir),
      if_neg (fun hx => hx.2.1 hdir), if_pos ⟨hnum, hlet⟩, hpeel]
    show (if suf = "" ∧ core.length + pre.length < 4 then ScanResult.found (NumVal.s core) pre "B"
      else match pyInt? core with
        | some n => ScanResult.found (NumVal.i (n + 1)) pre suf
        | none => ScanResult.failInt rnum core suf) = ScanResult.failInt rnum core suf
    rw [if_neg hwide, hint]
  unfold form_new_linename
  simp only [hp]
  rw [hscan]

/-- Witness for C9: route token `1A2B` peels to core `1A2`, which is not an
integer; with a first history entry storing the same number and letter at
the same direction the call raises the modelled `ValueError`. -/
theorem unparseable_core_value_error_witness :
    form_new_linename "1A2B - X - Y" "L" 1 [] [] [⟨"Q", .s "1A2B", "L", 1⟩] =
      .error (.valueErr "1A2B" "1A2" "B") :=
  unparseable_core_value_error "1A2B - X - Y" "L" 1 [] [] ⟨"Q", .s "1A2B", "L", 1⟩ []
    "1A2B" ["X", "Y"] "1A2" "" "B" (by rfl) rfl (by rfl) rfl (by rfl) (by decide) (by rfl)

/-- C4 counterexample: the route token `12B` keeps its peeled trailing
letter inside the padded number portion, producing identifier `L012B2`,
which contains an alphabetic character after the leading area letter and
therefore does not match the digits-only shape
`<letter>{1,2}<digits>{3,4}<direction digit>` asserted by the claim. -/
theorem identifier_shape_cex :
    form_new_linename "12B - A - B" "L" 2 [] [] [] =
      .ok ("L012B2", "A - B", ["L012B2"], [("L", 99)], [⟨"A - B", .s "12B", "L", 2⟩]) ∧
      claim_shape "L012B2" = false :=
  ⟨rfl, rfl⟩

/-- C4 amended: every identifier emitted by `form_new_linename` is the area
letter(s), followed by the resolved code left-padded with zeros to width 4
(3 when the area code has two characters), followed by the direction
digit; the code is purely numeric in the common case but may retain the
peeled one-letter prefix and/or suffix of the route token (or interior
letters of a malformed token), so the digits-only reading fails. -/
theorem identifier_shape (routeName letter : String) (dir : Nat) (lnames : List String)
    (rn : List (String × Nat)) (ds : List HistEntry) (nm cr : String) (ln2 : List String)
    (rn2 : List (String × Nat)) (ds2 : List HistEntry)
    (h : form_new_linename routeName letter dir lnames rn ds = .ok (nm, cr, ln2, rn2, ds2)) :
    ∃ code : String, nm = letter ++ zfill (nfillOf letter) code ++ pyStrNat dir := by
  obtain ⟨-, -, num, hshape, -⟩ := form_ok h
  exact ⟨num.toStr, hshape⟩

/-- Witness for C4 amended at the example line (letter `L`, direction 2). -/
theorem identifier_shape_witness :
    ∃ code : String, "L00122" = "L" ++ zfill (nfillOf "L") code ++ pyStrNat 2 :=
  identifier_shape "12 - Stationtown - Lakeside" "L" 2 [] [] [] "L00122"
    "Stationtown - Lakeside" ["L00122"] [("L", 99)]
    [⟨"Stationtown - Lakeside", .s "12", "L", 2⟩] (by rfl)

/-- C7 counterexample: for `12 - Big Town - End` the number token `12` is
extracted, but the parser keeps only the first word `Big` of the two-word
origin `Big Town` — the non-numeric word `Town` is dropped rather than
recombined, so the cleaned description is `Big - End`, not the
`Big Town - End` the claim predicts. -/
theorem parser_multiword_cex :
    parse_route "12 - Big Town - End" = .ok ("12", ["Big", "End"]) ∧
      joinSep " - " ["Big", "End"] ≠ joinSep " - " ["Big Town", "End"] :=
  ⟨rfl, by decide⟩

/-- C7 amended: when the first segment holds a number token and the second
segment splits into exactly two words whose first contains no digit, the
parser pops the number token but keeps only that first word as the new
head segment, dropping the second word; remaining words survive only in
the three-or-more-word case (numeric first word stripped, otherwise the
segment kept whole) or when the first of two words is numeric. -/
theorem parser_two_word_head (name p0 p1 w0 w1 : String) (rest : List String)
    (hsplit : reSplitDash name = p0 :: p1 :: rest)
    (hnum : includes_numbers p0 = true)
    (hw : splitWs p1 = [w0, w1])
    (hw0 : includes_numbers w0 = false) :
    parse_route name = .ok (p0, w0 :: rest) := by
  unfold parse_route
  simp only [hsplit]
  simp only [hw]
  simp [hnum, hw0]

/-- Witness for C7 amended at the counterexample input. -/
theorem parser_two_word_head_witness :
    parse_route "12 - Big Town - End" = .ok ("12", ["Big", "End"]) :=
  parser_two_word_head "12 - Big Town - End" "12" "Big Town" "Big" "Town" ["End"]
    (by rfl) (by rfl) (by rfl) (by rfl)

/-- C8: the renaming pass updates the external store in exactly one batch
publish at the end of a fully processed batch (one network record per
line), and a run aborting on an unrecoverable parse or classification
error produces no store effects at all: no per-line publish precedes the
final one. -/
theorem batch_publish_atomic (modes : List String) (codes : List (String × String))
    (lines : List OrchLine) :
    ((change_line_names modes codes lines).2 = none →
      ∃ net : List (String × String),
        (change_line_names modes codes lines).1 = [Effect.publish net] ∧
          net.length = lines.length) ∧
    (∀ e : NameErr, (change_line_names modes codes lines).2 = some e →
      (change_line_names modes codes lines).1 = []) := by
  have main : ∀ (ls : List OrchLine) (st : RunState) (acc : List (String × String)),
      ((clnLoop modes codes ls st acc).2 = none →
        ∃ net, (clnLoop modes codes ls st acc).1 = [Effect.publish net] ∧
          net.length = acc.length + ls.length) ∧
      (∀ e, (clnLoop modes codes ls st acc).2 = some e →
        (clnLoop modes codes ls st acc).1 = []) := by
    intro ls
    induction ls with
    | nil =>
      intro st acc
      refine ⟨fun _ => ⟨acc, rfl, by simp⟩, fun e he => ?_⟩
      simp [clnLoop] at he
    | cons l ls ih =>
      intro st acc
      unfold clnLoop
      dsimp only
      split
      · split
        · exact ⟨fun hnone => by simp at hnone, fun e _ => rfl⟩
        · rename_i nm desc st2 hpl
          refine ⟨fun hnone => ?_, (ih st2 (acc ++ [(nm, finalize_desc desc)])).2⟩
          obtain ⟨net, h1, h2⟩ := (ih st2 (acc ++ [(nm, finalize_desc desc)])).1 hnone
          refine ⟨net, h1, ?_⟩
          simp only [List.length_append, List.length_cons, List.length_nil] at h2 ⊢
          omega
      · refine ⟨fun hnone => ?_, (ih st (acc ++ [(l.origId, l.origDesc)])).2⟩
        obtain ⟨net, h1, h2⟩ := (ih st (acc ++ [(l.origId, l.origDesc)])).1 hnone
        refine ⟨net, h1, ?_⟩
        simp only [List.length_append, List.length_cons, List.length_nil] at h2 ⊢
        omega
  have h := main lines ⟨[], [], []⟩ []
  exact ⟨fun hn => by simpa using h.1 hn, h.2⟩

/-- Witness for C8: a one-line batch that succeeds produces exactly one
publish carrying one record, and a batch aborting on a parse error (a
dashless route name) produces no effects. -/
theorem batch_publish_atomic_witness :
    (∃ net : List (String × String),
      (change_line_names ["d"] []
        [⟨"d", "12 - A - B", "Local", [], 1, 2, 0, 0, 3, 4, "o", "od"⟩]).1 =
          [Effect.publish net] ∧ net.length = 1) ∧
    (change_line_names ["d"] []
      [⟨"d", "NoDash", "Local", [], 1, 2, 0, 0, 3, 4, "o", "od"⟩]).1 = [] :=
  ⟨(batch_publish_atomic ["d"] []
      [⟨"d", "12 - A - B", "Local", [], 1, 2, 0, 0, 3, 4, "o", "od"⟩]).1 (by rfl),
    (batch_publish_atomic ["d"] []
      [⟨"d", "NoDash", "Local", [], 1, 2, 0, 0, 3, 4, "o", "od"⟩]).2 .indexErr (by rfl)⟩

theorem recombine_empty (lnum : NumVal) : recombine lnum "" "" = lnum.toStr := rfl

theorem NumVal.toStr_s (t : String) : (NumVal.s t).toStr = t := rfl

theorem finishName_fresh {letter : String} {nfill dir : Nat} {lnames : List String}
    {rn : List (String × Nat)} {hist : List HistEntry} {cleaned : String} {lnum : NumVal}
    (h : letter ++ zfill nfill lnum.toStr ++ pyStrNat dir ∉ lnames) :
    finishName letter nfill dir lnames rn hist cleaned lnum "" "" =
      .ok (letter ++ zfill nfill lnum.toStr ++ pyStrNat dir, cleaned,
        lnames ++ [letter ++ zfill nfill lnum.toStr ++ pyStrNat dir], rn,
        hist ++ [⟨cleaned, .s lnum.toStr, letter, dir⟩]) := by
  unfold finishName
  rw [recombine_empty]
  have hres : resolveCollision letter nfill dir lnames (lnames.length + 2) (.s lnum.toStr) rn =
      some (letter ++ zfill nfill lnum.toStr ++ pyStrNat dir, .s lnum.toStr, rn) := by
    show resolveCollision letter nfill dir lnames (lnames.length + 1 + 1) (.s lnum.toStr) rn = _
    unfold resolveCollision
    dsimp only
    rw [NumVal.toStr_s]
    rw [if_neg h]
  rw [hres]

theorem form_found {routeName letter : String} {dir : Nat} {lnames : List String}
    {rn : List (String × Nat)} {ds : List HistEntry} {rnum : String} {parts : List String}
    {lnum : NumVal} {pre suf : String}
    (hp : parse_route routeName = .ok (rnum, parts))
    (hs : scanHist (joinSep " - " parts) (joinSep " - " parts.reverse) dir rnum letter ds =
      .found lnum pre suf) :
    form_new_linename routeName letter dir lnames rn ds =
      finishName letter (nfillOf letter) dir lnames (rnInit rn letter) ds
        (joinSep " - " parts) lnum pre suf := by
  unfold form_new_linename
  simp only [hp]
  rw [hs]

/-- C5 counterexample: the example line `12 - Stationtown - Lakeside` in
single-letter area `L` with direction 2 yields identifier `L00122` (the
number is padded to width 4 for a one-letter area), not the `L0122` the
claim predicts. -/
theorem reverse_pair_example_cex :
    form_new_linename "12 - Stationtown - Lakeside" "L" 2 [] [] [] =
      .ok ("L00122", "Stationtown - Lakeside", ["L00122"], [("L", 99)],
        [⟨"Stationtown - Lakeside", .s "12", "L", 2⟩]) ∧
      "L00122" ≠ "L0122" :=
  ⟨rfl, by decide⟩

/-- C5 amended: a line processed from the empty state followed by a line in
the same area whose cleaned description equals the first line's stored
description exactly or in reverse segment order, with a different
direction code, reuses the first line's resolved number: both identifiers
share the same stem (letter plus padded number) and differ only in the
trailing direction digit. With pad width 4 the example pair yields
`L00122` and `L00121` (see the counterexample for the claimed `L0122`). -/
theorem reverse_pair_shares_number (n1 n2 letter : String) (d1 d2 : Nat)
    (nm1 cr1 : String) (st1 : RunState) (rnum2 : String) (parts2 : List String)
    (h1 : processLine ⟨[], [], []⟩ n1 letter d1 = .ok (nm1, cr1, st1))
    (hd : d1 ≠ d2)
    (hp2 : parse_route n2 = .ok (rnum2, parts2))
    (hmatch : cr1 = joinSep " - " parts2 ∨ cr1 = joinSep " - " parts2.reverse) :
    ∃ stem cr2 : String, ∃ st2 : RunState,
      nm1 = stem ++ pyStrNat d1 ∧
      processLine st1 n2 letter d2 = .ok (stem ++ pyStrNat d2, cr2, st2) := by
  obtain ⟨hln1, -, num1, hshape1, hds1⟩ := processLine_ok h1
  simp only [List.nil_append] at hln1 hds1
  have hscan : scanHist (joinSep " - " parts2) (joinSep " - " parts2.reverse) d2 rnum2 letter
      st1.descriptions = .found num1 "" "" := by
    rw [hds1]
    unfold scanHist
    by_cases hc : cr1 = joinSep " - " parts2
    · rw [if_pos ⟨hc, hd⟩]
    · rw [if_neg (fun hx => hc hx.1), if_pos ⟨hmatch.resolve_left hc, hd⟩]
  have hfresh : letter ++ zfill (nfillOf letter) num1.toStr ++ pyStrNat d2 ∉ st1.lnames := by
    rw [hln1]
    intro hmem
    rw [List.mem_singleton] at hmem
    have : pyStrNat d2 = pyStrNat d1 := by
      apply string_append_right_inj (x := letter ++ zfill (nfillOf letter) num1.toStr)
      rw [hmem, hshape1]
    exact hd (pyStrNat_inj this).symm
  have hform := @form_found n2 letter d2 st1.lnames st1.running_n st1.descriptions
    rnum2 parts2 num1 "" "" hp2 hscan
  have hfin := @finishName_fresh letter (nfillOf letter) d2 st1.lnames
    (rnInit st1.running_n letter) st1.descriptions (joinSep " - " parts2) num1 hfresh
  refine ⟨letter ++ zfill (nfillOf letter) num1.toStr, joinSep " - " parts2,
    ⟨st1.lnames ++ [letter ++ zfill (nfillOf letter) num1.toStr ++ pyStrNat d2],
      rnInit st1.running_n letter,
      st1.descriptions ++ [⟨joinSep " - " parts2, .s num1.toStr, letter, d2⟩]⟩,
      hshape1, ?_⟩
  unfold processLine
  rw [hform, hfin]

/-- Witness for C5 amended at the example pair: `12 - Stationtown -
Lakeside` (direction 2) followed by `12 - Lakeside - Stationtown`
(direction 1) share the stem `L0012` and differ only in the direction
digit. -/
theorem reverse_pair_shares_number_witness :
    ∃ stem cr2 : String, ∃ st2 : RunState,
      "L00122" = stem ++ pyStrNat 2 ∧
      processLine ⟨["L00122"], [("L", 99)], [⟨"Stationtown - Lakeside", .s "12", "L", 2⟩]⟩
        "12 - Lakeside - Stationtown" "L" 1 = .ok (stem ++ pyStrNat 1, cr2, st2) :=
  reverse_pair_shares_number "12 - Stationtown - Lakeside" "12 - Lakeside - Stationtown"
    "L" 2 1 "L00122" "Stationtown - Lakeside"
    ⟨["L00122"], [("L", 99)], [⟨"Stationtown - Lakeside", .s "12", "L", 2⟩]⟩
    "12" ["Lakeside", "Stationtown"] (by rfl) (by decide) (by rfl) (Or.inr (by rfl))

theorem NumVal.toStr_i (n : Nat) : (NumVal.i n).toStr = pyStrNat n := rfl

theorem pyStrNatAux_ne_nil (f n : Nat) : pyStrNatAux f n ≠ [] := by
  cases f with
  | zero => simp [pyStrNatAux]
  | succ f =>
    unfold pyStrNatAux
    split
    · simp
    · simp

theorem pyStrNat_ne_empty (n : Nat) : pyStrNat n ≠ "" := by
  intro h
  exact pyStrNatAux_ne_nil n n (congrArg String.data h)

theorem rnFind_cons_self (k : String) (v : Nat) (rest : List (String × Nat)) :
    rnFind ((k, v) :: rest) k = some v := by
  simp [rnFind]

theorem rnSet_cons_self (k : String) (v w : Nat) (rest : List (String × Nat)) :
    rnSet ((k, v) :: rest) k w = (k, w) :: rest := by
  simp [rnSet]

theorem parse_no_number (name : String) (h : no_number_line name = true) :
    ∃ ps : List String, parse_route name = .ok ("", ps) := by
  unfold no_number_line at h
  rw [Bool.and_eq_true] at h
  obtain ⟨hlen, hnum⟩ := h
  unfold parse_route
  cases hsp : reSplitDash name with
  | nil =>
    rw [hsp] at hlen
    simp at hlen
  | cons p0 ps =>
    cases ps with
    | nil =>
      rw [hsp] at hlen
      simp at hlen
    | cons p1 rest =>
      rw [hsp] at hnum
      simp only [List.headD_cons, Bool.not_eq_eq_eq_not, Bool.not_true] at hnum
      dsimp only
      rw [if_neg (fun hx => by rw [hnum] at hx; exact absurd hx.2 (by simp)),
        if_neg (by simp [hnum])]
      split
      · exact ⟨p1 :: rest, rfl⟩
      · exact ⟨p0 :: p1 :: rest, rfl⟩

theorem scan_same_dir (cleaned reversedR : String) (dir : Nat) (rnum letter : String) :
    ∀ hist : List HistEntry,
      (∀ e ∈ hist, e.dir = dir ∧ e.num.pyEq (clean_line_code rnum) = false) →
      scanHist cleaned reversedR dir rnum letter hist = .nomatch := by
  intro hist
  induction hist with
  | nil => intro _; rfl
  | cons e rest ih =>
    intro h
    obtain ⟨hdir, hnum⟩ := h e (List.mem_cons_self e rest)
    unfold scanHist
    rw [if_neg (fun hx => hx.2 hdir), if_neg (fun hx => hx.2 hdir),
      if_neg (fun hx => hx.2.1 hdir),
      if_neg (fun hx => absurd hx.1 (by simp [hnum]))]
    exact ih (fun x hx => h x (List.mem_cons_of_mem e hx))

theorem form_nomatch_fallback {routeName letter : String} {dir : Nat} {lnames : List String}
    {rn : List (String × Nat)} {ds : List HistEntry} {parts : List String}
    (hp : parse_route routeName = .ok ("", parts))
    (hs : scanHist (joinSep " - " parts) (joinSep " - " parts.reverse) dir "" letter ds =
      .nomatch) :
    form_new_linename routeName letter dir lnames rn ds =
      finishName letter (nfillOf letter) dir lnames
        (rnSet (rnInit rn letter) letter ((rnFind (rnInit rn letter) letter).getD 0 + 1)) ds
        (joinSep " - " parts) (.i ((rnFind (rnInit rn letter) letter).getD 0)) "" "" := by
  unfold form_new_linename
  simp only [hp]
  rw [hs]
  simp

theorem fallback_step (letter : String) (dir : Nat) (name : String) (k : Nat) (st : RunState)
    (hname : no_number_line name = true)
    (hln : st.lnames = (List.range k).map (fun i => mkNameI letter (nfillOf letter) dir (99 + i)))
    (hrn : st.running_n = if k = 0 then [] else [(letter, 99 + k)])
    (hds : ∀ e ∈ st.descriptions, e.dir = dir ∧ e.num.pyEq "" = false) :
    ∃ cr, processLine st name letter dir =
      .ok (mkNameI letter (nfillOf letter) dir (99 + k), cr,
        ⟨st.lnames ++ [mkNameI letter (nfillOf letter) dir (99 + k)],
          [(letter, 99 + k + 1)],
          st.descriptions ++ [⟨cr, .s (pyStrNat (99 + k)), letter, dir⟩]⟩) := by
  obtain ⟨ps, hp⟩ := parse_no_number name hname
  have hscan : scanHist (joinSep " - " ps) (joinSep " - " ps.reverse) dir "" letter
      st.descriptions = .nomatch := by
    apply scan_same_dir
    intro e he
    exact hds e he
  have hrn0 : rnInit st.running_n letter = [(letter, 99 + k)] := by
    rw [hrn]
    by_cases hk : k = 0
    · subst hk
      rw [if_pos rfl]
      rfl
    · rw [if_neg hk]
      unfold rnInit
      rw [rnFind_cons_self]
      rfl
  have hfind : rnFind (rnInit st.running_n letter) letter = some (99 + k) := by
    rw [hrn0, rnFind_cons_self]
  have hform := @form_nomatch_fallback name letter dir st.lnames st.running_n
    st.descriptions ps hp hscan
  rw [hfind] at hform
  simp only [Option.getD_some] at hform
  rw [hrn0, rnSet_cons_self] at hform
  have hfresh : letter ++ zfill (nfillOf letter) (NumVal.i (99 + k)).toStr ++ pyStrNat dir ∉
      st.lnames := by
    rw [NumVal.toStr_i, hln]
    intro hmem
    simp only [List.mem_map, List.mem_range] at hmem
    obtain ⟨i, hik, hi⟩ := hmem
    have := @mkNameI_inj letter (nfillOf letter) dir _ _ hi
    omega
  have hfin := @finishName_fresh letter (nfillOf letter) dir st.lnames
    [(letter, 99 + k + 1)] st.descriptions (joinSep " - " ps) (NumVal.i (99 + k)) hfresh
  refine ⟨joinSep " - " ps, ?_⟩
  unfold processLine
  rw [hform, hfin]
  rfl

theorem fallback_run (letter : String) (dir : Nat) :
    ∀ reqs : List LineReq,
      (∀ r ∈ reqs, r.letter = letter ∧ r.dir = dir ∧ no_number_line r.routeName = true) →
      ∀ (k : Nat) (st : RunState),
        st.lnames = (List.range k).map (fun i => mkNameI letter (nfillOf letter) dir (99 + i)) →
        st.running_n = (if k = 0 then [] else [(letter, 99 + k)]) →
        st.descriptions.map HistEntry.num =
          (List.range k).map (fun i => NumVal.s (pyStrNat (99 + i))) →
        (∀ e ∈ st.descriptions, e.dir = dir) →
        ∃ st2, processRun st reqs = .ok st2 ∧
          st2.lnames = (List.range (k + reqs.length)).map
            (fun i => mkNameI letter (nfillOf letter) dir (99 + i)) ∧
          st2.descriptions.map HistEntry.num =
            (List.range (k + reqs.length)).map (fun i => NumVal.s (pyStrNat (99 + i))) := by
  intro reqs
  induction reqs with
  | nil =>
    intro _ k st h1 _ h3 _
    exact ⟨st, rfl, by simpa using h1, by simpa using h3⟩
  | cons r rs ih =>
    intro hreq k st h1 h2 h3 h4
    obtain ⟨hrl, hrd, hrno⟩ := hreq r (List.mem_cons_self r rs)
    have hds : ∀ e ∈ st.descriptions, e.dir = dir ∧ e.num.pyEq "" = false := by
      intro e he
      refine ⟨h4 e he, ?_⟩
      have hin : e.num ∈ st.descriptions.map HistEntry.num := List.mem_map_of_mem _ he
      rw [h3] at hin
      simp only [List.mem_map, List.mem_range] at hin
      obtain ⟨i, -, hi⟩ := hin
      rw [← hi]
      simp [NumVal.pyEq, pyStrNat_ne_empty]
    obtain ⟨cr, hstep⟩ := fallback_step letter dir r.routeName k st hrno h1 h2 hds
    have hrun : ∃ st2, processRun
        (⟨st.lnames ++ [mkNameI letter (nfillOf letter) dir (99 + k)],
          [(letter, 99 + k + 1)],
          st.descriptions ++ [⟨cr, .s (pyStrNat (99 + k)), letter, dir⟩]⟩ : RunState) rs =
          .ok st2 ∧
        st2.lnames = (List.range (k + 1 + rs.length)).map
          (fun i => mkNameI letter (nfillOf letter) dir (99 + i)) ∧
        st2.descriptions.map HistEntry.num =
          (List.range (k + 1 + rs.length)).map (fun i => NumVal.s (pyStrNat (99 + i))) := by
      apply ih (fun x hx => hreq x (List.mem_cons_of_mem r hx)) (k + 1)
      · show st.lnames ++ [mkNameI letter (nfillOf letter) dir (99 + k)] = _
        rw [h1, List.range_succ, List.map_append]
        simp
      · rfl
      · show (st.descriptions ++
            [(⟨cr, .s (pyStrNat (99 + k)), letter, dir⟩ : HistEntry)]).map HistEntry.num = _
        rw [List.map_append, h3, List.range_succ, List.map_append]
        rfl
      · intro e he
        rcases List.mem_append.mp he with he2 | he2
        · exact h4 e he2
        · rw [List.mem_singleton] at he2
          rw [he2]
    obtain ⟨st2, hr2, ha, hb⟩ := hrun
    refine ⟨st2, ?_, ?_, ?_⟩
    · unfold processRun
      rw [hrl, hrd, hstep]
      exact hr2
    · rw [ha]
      have hlen : k + 1 + rs.length = k + (r :: rs).length := by
        simp only [List.length_cons]
        omega
      rw [hlen]
    · rw [hb]
      have hlen : k + 1 + rs.length = k + (r :: rs).length := by
        simp only [List.length_cons]
        omega
      rw [hlen]

/-- C3 counterexample: a first line with no parseable route-number token
draws fallback number 99 — not 100 — from the freshly initialised counter:
its identifier is `V00991` (padded `0099`), the stored number is `99` and
the counter advances to 100 only afterwards, so the identifier `V01001`
that the claimed start value would produce is not emitted. -/
theorem fallback_start_cex :
    processRun ⟨[], [], []⟩ [⟨"A - B", "V", 1⟩] =
      .ok ⟨["V00991"], [("V", 100)], [⟨"A - B", .s "99", "V", 1⟩]⟩ ∧
    "V00991" ≠ "V01001" :=
  ⟨rfl, by decide⟩

/-- C3 amended: for every area letter and every sequence of N lines with
that letter, a common direction code, and no parseable route-number token,
the fallback numbers assigned are strictly increasing consecutive values
starting at the counter start constant itself (99, so the first fallback
number is 99, not 100): line i receives number 99+i, both in its stored
history entry and inside its zero-padded identifier. -/
theorem fallback_numbers_from_99 (letter : String) (dir : Nat) (reqs : List LineReq)
    (hreq : ∀ r ∈ reqs, r.letter = letter ∧ r.dir = dir ∧ no_number_line r.routeName = true) :
    ∃ st : RunState, processRun ⟨[], [], []⟩ reqs = .ok st ∧
      st.lnames = (List.range reqs.length).map
        (fun i => mkNameI letter (nfillOf letter) dir (99 + i)) ∧
      st.descriptions.map HistEntry.num =
        (List.range reqs.length).map (fun i => NumVal.s (pyStrNat (99 + i))) := by
  have h := fallback_run letter dir reqs hreq 0 ⟨[], [], []⟩ (by simp) (by simp) (by simp)
    (by simp)
  simpa using h

/-- Witness for C3 amended: two no-number lines in area `V`, direction 1,
receive numbers 99 and 100 (identifiers `V00991`, `V01001`). -/
theorem fallback_numbers_from_99_witness :
    ∃ st : RunState,
      processRun ⟨[], [], []⟩ [⟨"A - B", "V", 1⟩, ⟨"C - D", "V", 1⟩] = .ok st ∧
      st.lnames = (List.range 2).map (fun i => mkNameI "V" (nfillOf "V") 1 (99 + i)) ∧
      st.descriptions.map HistEntry.num =
        (List.range 2).map (fun i => NumVal.s (pyStrNat (99 + i))) :=
  fallback_numbers_from_99 "V" 1 [⟨"A - B", "V", 1⟩, ⟨"C - D", "V", 1⟩] (by decide)
